import Mathlib

/-!
Verification of the h3index single-page visualization (src/src/App.tsx).

The app consists of a piecewise-linear color mapper (getKeplerColor), a CSV
loader (loadCSVData), a min/max range reducer, and a view component.  JS
numbers are modelled as exact rationals; Math.round is Mathlib round (both
compute the floor of x + 1/2, including for negative halves).  A second,
small model with explicit NaN/Infinity values (JsNum) captures the IEEE
division-by-zero behaviour that one safety claim is about.
-/

namespace H3App

/-- An RGBA color with integer channels, the return shape of getKeplerColor. -/
structure Rgba where
  r : ℤ
  g : ℤ
  b : ℤ
  a : ℤ
deriving DecidableEq, Repr

/-- An RGB triple of rationals, before rounding. -/
structure RgbQ where
  r : ℚ
  g : ℚ
  b : ℚ
deriving DecidableEq, Repr

/-- Embedding of getKeplerColor from src/src/App.tsx lines 9 to 50.
JS numbers are exact rationals here; Math.round is round. -/
def getKeplerColor (normalized : ℚ) : Rgba :=
  if normalized ≤ 0.25 then
    { r := round (68 + (59 - 68) * (normalized / 0.25))
      g := round (1 + (82 - 1) * (normalized / 0.25))
      b := round (84 + (139 - 84) * (normalized / 0.25))
      a := 200 }
  else if normalized ≤ 0.5 then
    { r := round (59 + (33 - 59) * ((normalized - 0.25) / 0.25))
      g := round (82 + (144 - 82) * ((normalized - 0.25) / 0.25))
      b := round (139 + (140 - 139) * ((normalized - 0.25) / 0.25))
      a := 200 }
  else if normalized ≤ 0.75 then
    { r := round (33 + (94 - 33) * ((normalized - 0.5) / 0.25))
      g := round (144 + (201 - 144) * ((normalized - 0.5) / 0.25))
      b := round (140 + (98 - 140) * ((normalized - 0.5) / 0.25))
      a := 200 }
  else
    { r := round (94 + (253 - 94) * ((normalized - 0.75) / 0.25))
      g := round (201 + (231 - 201) * ((normalized - 0.75) / 0.25))
      b := round (98 + (37 - 98) * ((normalized - 0.75) / 0.25))
      a := 200 }

/-- The piecewise-linear interpolant of getKeplerColor before the final
rounding: the same four branches and the same affine formulas as in
src/src/App.tsx lines 13 to 49, with Math.round stripped. -/
def keplerPre (normalized : ℚ) : RgbQ :=
  if normalized ≤ 0.25 then
    { r := 68 + (59 - 68) * (normalized / 0.25)
      g := 1 + (82 - 1) * (normalized / 0.25)
      b := 84 + (139 - 84) * (normalized / 0.25) }
  else if normalized ≤ 0.5 then
    { r := 59 + (33 - 59) * ((normalized - 0.25) / 0.25)
      g := 82 + (144 - 82) * ((normalized - 0.25) / 0.25)
      b := 139 + (140 - 139) * ((normalized - 0.25) / 0.25) }
  else if normalized ≤ 0.75 then
    { r := 33 + (94 - 33) * ((normalized - 0.5) / 0.25)
      g := 144 + (201 - 144) * ((normalized - 0.5) / 0.25)
      b := 140 + (98 - 140) * ((normalized - 0.5) / 0.25) }
  else
    { r := 94 + (253 - 94) * ((normalized - 0.75) / 0.25)
      g := 201 + (231 - 201) * ((normalized - 0.75) / 0.25)
      b := 98 + (37 - 98) * ((normalized - 0.75) / 0.25) }

lemma q025 : (0.25 : ℚ) = 1 / 4 := by norm_num

lemma q05 : (0.5 : ℚ) = 1 / 2 := by norm_num

lemma q075 : (0.75 : ℚ) = 3 / 4 := by norm_num

/-- getKeplerColor is the channelwise rounding of keplerPre, with alpha 200. -/
lemma getKeplerColor_eq_round_keplerPre (n : ℚ) :
    getKeplerColor n =
      { r := round (keplerPre n).r, g := round (keplerPre n).g,
        b := round (keplerPre n).b, a := 200 } := by
  unfold getKeplerColor keplerPre
  split
  · rfl
  · split
    · rfl
    · split
      · rfl
      · rfl

/-- Claim C1: the color mapper at the endpoints returns the exact palette
endpoint colors: getKeplerColor 0 = [68,1,84,200] and
getKeplerColor 1 = [253,231,37,200]. -/
theorem getKeplerColor_endpoints :
    getKeplerColor 0 = { r := 68, g := 1, b := 84, a := 200 } ∧
    getKeplerColor 1 = { r := 253, g := 231, b := 37, a := 200 } := by
  constructor <;> norm_num [getKeplerColor, round_eq, Rgba.mk.injEq]

lemma round_mono' {x y : ℚ} (h : x ≤ y) : round x ≤ round y := by
  rw [round_eq, round_eq]
  exact Int.floor_mono (by linarith)

lemma int_le_round {m : ℤ} {x : ℚ} (h : (m : ℚ) ≤ x) : m ≤ round x := by
  have := round_mono' h
  rwa [round_intCast] at this

lemma round_le_int {m : ℤ} {x : ℚ} (h : x ≤ (m : ℚ)) : round x ≤ m := by
  have := round_mono' h
  rwa [round_intCast] at this

lemma abs_round_sub_round_le {x y : ℚ} (h : |x - y| ≤ 1) : |round x - round y| ≤ 1 := by
  rw [abs_le] at h ⊢
  constructor
  · have hy : y - 1 ≤ x := by linarith [h.2]
    have : round ((y : ℚ) - 1) ≤ round x := round_mono' hy
    rw [round_eq, round_eq] at this
    have e : ((y : ℚ) - 1) + 1 / 2 = (y + 1 / 2) + (-1 : ℤ) := by push_cast; ring
    rw [e, Int.floor_add_int] at this
    rw [round_eq, round_eq]
    omega
  · have hx : x ≤ y + 1 := by linarith [h.1]
    have : round x ≤ round ((y : ℚ) + 1) := round_mono' hx
    rw [round_eq, round_eq] at this
    have e : ((y : ℚ) + 1) + 1 / 2 = (y + 1 / 2) + (1 : ℤ) := by push_cast; ring
    rw [e, Int.floor_add_int] at this
    rw [round_eq, round_eq]
    omega

lemma getKeplerColor_branch1 {n : ℚ} (h : n ≤ 0.25) :
    getKeplerColor n =
      { r := round (68 + (59 - 68) * (n / 0.25))
        g := round (1 + (82 - 1) * (n / 0.25))
        b := round (84 + (139 - 84) * (n / 0.25))
        a := 200 } := by
  unfold getKeplerColor
  rw [if_pos h]

lemma getKeplerColor_branch2 {n : ℚ} (h1 : ¬ n ≤ 0.25) (h2 : n ≤ 0.5) :
    getKeplerColor n =
      { r := round (59 + (33 - 59) * ((n - 0.25) / 0.25))
        g := round (82 + (144 - 82) * ((n - 0.25) / 0.25))
        b := round (139 + (140 - 139) * ((n - 0.25) / 0.25))
        a := 200 } := by
  unfold getKeplerColor
  rw [if_neg h1, if_pos h2]

lemma getKeplerColor_branch3 {n : ℚ} (h1 : ¬ n ≤ 0.5) (h2 : n ≤ 0.75) :
    getKeplerColor n =
      { r := round (33 + (94 - 33) * ((n - 0.5) / 0.25))
        g := round (144 + (201 - 144) * ((n - 0.5) / 0.25))
        b := round (140 + (98 - 140) * ((n - 0.5) / 0.25))
        a := 200 } := by
  unfold getKeplerColor
  have h0 : ¬ n ≤ 0.25 := by rw [q025] at *; rw [q05] at h1; intro hc; exact h1 (by linarith)
  rw [if_neg h0, if_neg h1, if_pos h2]

lemma getKeplerColor_branch4 {n : ℚ} (h : ¬ n ≤ 0.75) :
    getKeplerColor n =
      { r := round (94 + (253 - 94) * ((n - 0.75) / 0.25))
        g := round (201 + (231 - 201) * ((n - 0.75) / 0.25))
        b := round (98 + (37 - 98) * ((n - 0.75) / 0.25))
        a := 200 } := by
  unfold getKeplerColor
  have h1 : ¬ n ≤ 0.25 := by rw [q025] at *; rw [q075] at h; intro hc; exact h (by linarith)
  have h2 : ¬ n ≤ 0.5 := by rw [q05] at *; rw [q075] at h; intro hc; exact h (by linarith)
  rw [if_neg h1, if_neg h2, if_neg h]

/-- Claim C6: for every input, the color mapper returns alpha exactly 200 and
each RGB channel is the nearest-integer rounding of the piecewise-linear
interpolant keplerPre at that input. -/
theorem getKeplerColor_round_and_alpha (n : ℚ) :
    (getKeplerColor n).a = 200 ∧
    (getKeplerColor n).r = round (keplerPre n).r ∧
    (getKeplerColor n).g = round (keplerPre n).g ∧
    (getKeplerColor n).b = round (keplerPre n).b := by
  rw [getKeplerColor_eq_round_keplerPre n]
  exact ⟨rfl, rfl, rfl, rfl⟩

/-- Claim C10: for every normalized input in [0,1], the R, G and B channels
of the color mapper are integers in [0,255], so the output is a valid RGBA
color for in-range inputs. -/
theorem getKeplerColor_valid_rgb (n : ℚ) (h0 : 0 ≤ n) (h1 : n ≤ 1) :
    (0 ≤ (getKeplerColor n).r ∧ (getKeplerColor n).r ≤ 255) ∧
    (0 ≤ (getKeplerColor n).g ∧ (getKeplerColor n).g ≤ 255) ∧
    (0 ≤ (getKeplerColor n).b ∧ (getKeplerColor n).b ≤ 255) := by
  by_cases hb1 : n ≤ (0.25 : ℚ)
  · rw [getKeplerColor_branch1 hb1]
    rw [q025] at hb1
    refine ⟨⟨int_le_round ?_, round_le_int ?_⟩, ⟨int_le_round ?_, round_le_int ?_⟩,
      int_le_round ?_, round_le_int ?_⟩ <;> rw [q025] <;> push_cast <;> nlinarith
  · by_cases hb2 : n ≤ (0.5 : ℚ)
    · rw [getKeplerColor_branch2 hb1 hb2]
      rw [q025] at hb1
      rw [q05] at hb2
      refine ⟨⟨int_le_round ?_, round_le_int ?_⟩, ⟨int_le_round ?_, round_le_int ?_⟩,
        int_le_round ?_, round_le_int ?_⟩ <;> rw [q025] <;> push_cast <;> nlinarith
    · by_cases hb3 : n ≤ (0.75 : ℚ)
      · rw [getKeplerColor_branch3 hb2 hb3]
        rw [q05] at hb2
        rw [q075] at hb3
        refine ⟨⟨int_le_round ?_, round_le_int ?_⟩, ⟨int_le_round ?_, round_le_int ?_⟩,
          int_le_round ?_, round_le_int ?_⟩ <;> rw [q025, q05] <;> push_cast <;> nlinarith
      · rw [getKeplerColor_branch4 hb3]
        rw [q075] at hb3
        refine ⟨⟨int_le_round ?_, round_le_int ?_⟩, ⟨int_le_round ?_, round_le_int ?_⟩,
          int_le_round ?_, round_le_int ?_⟩ <;> rw [q025, q075] <;> push_cast <;> nlinarith

/-- Witness for C10: the theorem instantiated at the concrete input 1/2. -/
theorem getKeplerColor_valid_rgb_witness :
    (0 ≤ (1 / 2 : ℚ)) ∧ ((1 / 2 : ℚ) ≤ 1) ∧
    ((0 ≤ (getKeplerColor (1 / 2)).r ∧ (getKeplerColor (1 / 2)).r ≤ 255) ∧
      (0 ≤ (getKeplerColor (1 / 2)).g ∧ (getKeplerColor (1 / 2)).g ≤ 255) ∧
      (0 ≤ (getKeplerColor (1 / 2)).b ∧ (getKeplerColor (1 / 2)).b ≤ 255)) :=
  ⟨by norm_num, by norm_num,
    getKeplerColor_valid_rgb (1 / 2) (by norm_num) (by norm_num)⟩

/-- Claim C7: the color mapper does not clamp: below 0 the interpolant moves
past the first start color [68,1,84] (R above 68, G below 1, B below 84),
above 1 it moves past the last end color [253,231,37], and at the concrete
out-of-range inputs -1 and 2 the output differs from both endpoint colors. -/
theorem getKeplerColor_extrapolates :
    (∀ n : ℚ, n < 0 →
      68 < (keplerPre n).r ∧ (keplerPre n).g < 1 ∧ (keplerPre n).b < 84) ∧
    (∀ n : ℚ, 1 < n →
      253 < (keplerPre n).r ∧ 231 < (keplerPre n).g ∧ (keplerPre n).b < 37) ∧
    getKeplerColor (-1) ≠ getKeplerColor 0 ∧ getKeplerColor (-1) ≠ getKeplerColor 1 ∧
    getKeplerColor 2 ≠ getKeplerColor 0 ∧ getKeplerColor 2 ≠ getKeplerColor 1 := by
  refine ⟨?_, ?_, ?_, ?_, ?_, ?_⟩
  · intro n hn
    have h : n ≤ (0.25 : ℚ) := by rw [q025]; linarith
    unfold keplerPre
    rw [if_pos h]
    refine ⟨?_, ?_, ?_⟩ <;> simp only [] <;> rw [q025] <;> nlinarith
  · intro n hn
    have h : ¬ n ≤ (0.75 : ℚ) := by rw [q075]; intro hc; linarith
    have h1 : ¬ n ≤ (0.25 : ℚ) := by rw [q025]; intro hc; linarith
    have h2 : ¬ n ≤ (0.5 : ℚ) := by rw [q05]; intro hc; linarith
    unfold keplerPre
    rw [if_neg h1, if_neg h2, if_neg h]
    refine ⟨?_, ?_, ?_⟩ <;> simp only [] <;> rw [q025, q075] <;> nlinarith
  all_goals norm_num [getKeplerColor, round_eq, Rgba.mk.injEq]

/-- Witness for C7: the universally quantified parts instantiated at the
concrete out-of-range inputs -1 and 2. -/
theorem getKeplerColor_extrapolates_witness :
    ((-1 : ℚ) < 0) ∧ ((1 : ℚ) < 2) ∧
    (68 < (keplerPre (-1)).r ∧ (keplerPre (-1)).g < 1 ∧ (keplerPre (-1)).b < 84) ∧
    (253 < (keplerPre 2).r ∧ 231 < (keplerPre 2).g ∧ (keplerPre 2).b < 37) :=
  ⟨by norm_num, by norm_num,
    getKeplerColor_extrapolates.1 (-1) (by norm_num),
    getKeplerColor_extrapolates.2.1 2 (by norm_num)⟩

/-- Claim C4: the color mapper is continuous at the three interior segment
boundaries: its value at 0.25, 0.5, 0.75 is the shared endpoint triple of the
adjoining segments ([59,82,139], [33,144,140], [94,201,98]), and for every
small positive offset the colors just left and just right of each boundary
agree within rounding tolerance (channelwise distance at most 1). -/
theorem getKeplerColor_continuous_at_boundaries :
    (getKeplerColor (1 / 4) = { r := 59, g := 82, b := 139, a := 200 } ∧
      ∀ ε : ℚ, 0 < ε → ε ≤ 1 / 1000 →
        |(getKeplerColor (1 / 4 + ε)).r - (getKeplerColor (1 / 4 - ε)).r| ≤ 1 ∧
        |(getKeplerColor (1 / 4 + ε)).g - (getKeplerColor (1 / 4 - ε)).g| ≤ 1 ∧
        |(getKeplerColor (1 / 4 + ε)).b - (getKeplerColor (1 / 4 - ε)).b| ≤ 1) ∧
    (getKeplerColor (1 / 2) = { r := 33, g := 144, b := 140, a := 200 } ∧
      ∀ ε : ℚ, 0 < ε → ε ≤ 1 / 1000 →
        |(getKeplerColor (1 / 2 + ε)).r - (getKeplerColor (1 / 2 - ε)).r| ≤ 1 ∧
        |(getKeplerColor (1 / 2 + ε)).g - (getKeplerColor (1 / 2 - ε)).g| ≤ 1 ∧
        |(getKeplerColor (1 / 2 + ε)).b - (getKeplerColor (1 / 2 - ε)).b| ≤ 1) ∧
    (getKeplerColor (3 / 4) = { r := 94, g := 201, b := 98, a := 200 } ∧
      ∀ ε : ℚ, 0 < ε → ε ≤ 1 / 1000 →
        |(getKeplerColor (3 / 4 + ε)).r - (getKeplerColor (3 / 4 - ε)).r| ≤ 1 ∧
        |(getKeplerColor (3 / 4 + ε)).g - (getKeplerColor (3 / 4 - ε)).g| ≤ 1 ∧
        |(getKeplerColor (3 / 4 + ε)).b - (getKeplerColor (3 / 4 - ε)).b| ≤ 1) := by
  refine ⟨⟨?_, ?_⟩, ⟨?_, ?_⟩, ⟨?_, ?_⟩⟩
  · norm_num [getKeplerColor, round_eq, Rgba.mk.injEq]
  · intro ε hp hs
    have hL : (1 / 4 - ε : ℚ) ≤ 0.25 := by rw [q025]; linarith
    have hR1 : ¬ (1 / 4 + ε : ℚ) ≤ 0.25 := by rw [q025]; intro hc; linarith
    have hR2 : (1 / 4 + ε : ℚ) ≤ 0.5 := by rw [q05]; linarith
    rw [getKeplerColor_branch2 hR1 hR2, getKeplerColor_branch1 hL]
    refine ⟨abs_round_sub_round_le ?_, abs_round_sub_round_le ?_,
      abs_round_sub_round_le ?_⟩ <;> rw [q025] <;> rw [abs_le] <;>
      constructor <;> nlinarith
  · norm_num [getKeplerColor, round_eq, Rgba.mk.injEq]
  · intro ε hp hs
    have hL1 : ¬ (1 / 2 - ε : ℚ) ≤ 0.25 := by rw [q025]; intro hc; linarith
    have hL2 : (1 / 2 - ε : ℚ) ≤ 0.5 := by rw [q05]; linarith
    have hR1 : ¬ (1 / 2 + ε : ℚ) ≤ 0.5 := by rw [q05]; intro hc; linarith
    have hR2 : (1 / 2 + ε : ℚ) ≤ 0.75 := by rw [q075]; linarith
    rw [getKeplerColor_branch3 hR1 hR2, getKeplerColor_branch2 hL1 hL2]
    refine ⟨abs_round_sub_round_le ?_, abs_round_sub_round_le ?_,
      abs_round_sub_round_le ?_⟩ <;> rw [q025, q05] <;> rw [abs_le] <;>
      constructor <;> nlinarith
  · norm_num [getKeplerColor, round_eq, Rgba.mk.injEq]
  · intro ε hp hs
    have hL1 : ¬ (3 / 4 - ε : ℚ) ≤ 0.5 := by rw [q05]; intro hc; linarith
    have hL2 : (3 / 4 - ε : ℚ) ≤ 0.75 := by rw [q075]; linarith
    have hR : ¬ (3 / 4 + ε : ℚ) ≤ 0.75 := by rw [q075]; intro hc; linarith
    rw [getKeplerColor_branch4 hR, getKeplerColor_branch3 hL1 hL2]
    refine ⟨abs_round_sub_round_le ?_, abs_round_sub_round_le ?_,
      abs_round_sub_round_le ?_⟩ <;> rw [q025, q05, q075] <;> rw [abs_le] <;>
      constructor <;> nlinarith

/-- Witness for C4: the boundary tolerance statements instantiated at the
concrete offset 1/2000. -/
theorem getKeplerColor_continuous_witness :
    (0 < (1 / 2000 : ℚ)) ∧ ((1 / 2000 : ℚ) ≤ 1 / 1000) ∧
    (|(getKeplerColor (1 / 4 + 1 / 2000)).r - (getKeplerColor (1 / 4 - 1 / 2000)).r| ≤ 1 ∧
      |(getKeplerColor (1 / 4 + 1 / 2000)).g - (getKeplerColor (1 / 4 - 1 / 2000)).g| ≤ 1 ∧
      |(getKeplerColor (1 / 4 + 1 / 2000)).b - (getKeplerColor (1 / 4 - 1 / 2000)).b| ≤ 1) ∧
    (|(getKeplerColor (1 / 2 + 1 / 2000)).r - (getKeplerColor (1 / 2 - 1 / 2000)).r| ≤ 1 ∧
      |(getKeplerColor (1 / 2 + 1 / 2000)).g - (getKeplerColor (1 / 2 - 1 / 2000)).g| ≤ 1 ∧
      |(getKeplerColor (1 / 2 + 1 / 2000)).b - (getKeplerColor (1 / 2 - 1 / 2000)).b| ≤ 1) ∧
    (|(getKeplerColor (3 / 4 + 1 / 2000)).r - (getKeplerColor (3 / 4 - 1 / 2000)).r| ≤ 1 ∧
      |(getKeplerColor (3 / 4 + 1 / 2000)).g - (getKeplerColor (3 / 4 - 1 / 2000)).g| ≤ 1 ∧
      |(getKeplerColor (3 / 4 + 1 / 2000)).b - (getKeplerColor (3 / 4 - 1 / 2000)).b| ≤ 1) :=
  ⟨by norm_num, by norm_num,
    getKeplerColor_continuous_at_boundaries.1.2 (1 / 2000) (by norm_num) (by norm_num),
    getKeplerColor_continuous_at_boundaries.2.1.2 (1 / 2000) (by norm_num) (by norm_num),
    getKeplerColor_continuous_at_boundaries.2.2.2 (1 / 2000) (by norm_num) (by norm_num)⟩

/-- Accumulate a list of decimal digit characters into a natural number. -/
def digitsVal (l : List Char) : ℕ :=
  l.foldl (fun acc c => 10 * acc + (c.toNat - 48)) 0

/-- Model of the JS parseFloat builtin (not repository code): skip leading
whitespace, read an optional sign and a decimal numeral prefix (integer part,
optional fraction part); trailing garbage is ignored; none models NaN, the
result when no numeral prefix is present.  Exponent notation is omitted; no
claim depends on which exact strings are numeric. -/
def jsParseFloat (s : String) : Option ℚ :=
  let l0 := s.data.dropWhile fun c => c == ' ' || c == '\t' || c == '\n' || c == '\r'
  let sgn : ℚ :=
    match l0 with
    | '-' :: _ => -1
    | _ => 1
  let l1 :=
    match l0 with
    | '-' :: rest => rest
    | '+' :: rest => rest
    | _ => l0
  let intPart := l1.takeWhile Char.isDigit
  let rest := l1.dropWhile Char.isDigit
  let fracPart :=
    match rest with
    | '.' :: r => r.takeWhile Char.isDigit
    | _ => []
  if intPart.isEmpty && fracPart.isEmpty then none
  else some (sgn * ((digitsVal intPart : ℚ) +
    (digitsVal fracPart : ℚ) / (10 : ℚ) ^ fracPart.length))

/-- A parsed CSV row, as built in loadCSVData (src/src/App.tsx lines 64 to
70).  A missing field (an out-of-range index, undefined in JS) is modelled as
"" for the string fields, both being falsy; val_trans is none when the fifth
field is missing or does not coerce to a number (NaN). -/
structure CellRecord where
  city : String
  locality : String
  h3index : String
  poiCode : String
  val_trans : Option ℚ
deriving DecidableEq, Repr

/-- One row of the CSV, split positionally on commas, as in src/src/App.tsx
lines 63 to 70. -/
def parseLine (line : String) : CellRecord :=
  let values := line.splitOn ","
  { city := (values.get? 0).getD ""
    locality := (values.get? 1).getD ""
    h3index := (values.get? 2).getD ""
    poiCode := (values.get? 3).getD ""
    val_trans := (values.get? 4).bind jsParseFloat }

/-- The filter on line 72 of src/src/App.tsx: keep a row when its h3index is
truthy (non-empty) and its value is not NaN. -/
def keepRecord (item : CellRecord) : Bool :=
  item.h3index != "" && item.val_trans.isSome

/-- The non-blank data lines of the CSV text: split on newline, drop the
header, drop lines that are blank after trimming (lines 58 to 61). -/
def dataLines (csvText : String) : List String :=
  ((csvText.splitOn "\n").drop 1).filter fun line => line.trim != ""

/-- The parsing pipeline of loadCSVData applied to fetched CSV text
(src/src/App.tsx lines 58 to 74). -/
def parseRows (csvText : String) : List CellRecord :=
  ((dataLines csvText).map parseLine).filter keepRecord

/-- Embedding of loadCSVData (src/src/App.tsx lines 53 to 79): the awaited
fetch is modelled as an explicit Except input, ok with the response text on
success and error when the fetch or text extraction throws; the catch branch
logs and returns the empty list. -/
def loadCSVData (fetched : Except String String) : List CellRecord :=
  match fetched with
  | .ok csvText => parseRows csvText
  | .error _ => []

/-- A data line is dropped when its third field (the grid cell identifier) is
empty or missing, or its fifth field does not coerce to a number. -/
def droppedLine (line : String) : Bool :=
  (((line.splitOn ",").get? 2).getD "" == "") ||
    (((line.splitOn ",").get? 4).bind jsParseFloat).isNone

lemma bool_keep_eq (x : String) (y : Option ℚ) :
    (x != "" && y.isSome) = !((x == "") || y.isNone) := by
  cases y <;> cases hx : (x == "") <;> simp [hx, bne]

lemma keepRecord_parseLine (line : String) :
    keepRecord (parseLine line) = !droppedLine line :=
  bool_keep_eq (((line.splitOn ",").get? 2).getD "")
    (((line.splitOn ",").get? 4).bind jsParseFloat)

lemma countP_not_add {α : Type} (p : α → Bool) (l : List α) :
    l.countP (fun a => !p a) + l.countP p = l.length := by
  induction l with
  | nil => rfl
  | cons x xs ih =>
    rw [List.countP_cons, List.countP_cons]
    cases h : p x <;> simp [h] <;> omega

/-- Claim C2: for every CSV text, the number of records produced by the
parsing pipeline equals the number of non-blank lines after the header minus
the number of those lines whose third field is empty or whose fifth field
does not coerce to a number. -/
theorem parseRows_length (csvText : String) :
    (parseRows csvText).length =
      (dataLines csvText).length - (dataLines csvText).countP droppedLine := by
  unfold parseRows
  rw [← List.countP_eq_length_filter, List.countP_map]
  have hf : (keepRecord ∘ parseLine) = fun line => !droppedLine line :=
    funext fun line => keepRecord_parseLine line
  rw [hf]
  have hsplit := countP_not_add droppedLine (dataLines csvText)
  omega

/-- Claim C8: on any failure of the fetch (the thrown-error case of the
try/catch), the loader returns the empty sequence. -/
theorem loadCSVData_error_empty (e : String) :
    loadCSVData (Except.error e) = [] := rfl

/-- Embedding of the range computation in the load effect (src/src/App.tsx
lines 84 and 92 to 97): Math.min and Math.max over the spread values array
when it is non-empty; when it is empty dataRange keeps its initial (0, 0). -/
def computeRange (values : List ℚ) : ℚ × ℚ :=
  match values with
  | [] => (0, 0)
  | v :: vs => (vs.foldl min v, vs.foldl max v)

lemma foldl_min_le_init (vs : List ℚ) (a : ℚ) : vs.foldl min a ≤ a := by
  induction vs generalizing a with
  | nil => exact le_refl a
  | cons x xs ih =>
    calc (x :: xs).foldl min a = xs.foldl min (min a x) := rfl
      _ ≤ min a x := ih (min a x)
      _ ≤ a := min_le_left a x

lemma foldl_min_le_mem (vs : List ℚ) (a v : ℚ) (hv : v ∈ vs) :
    vs.foldl min a ≤ v := by
  induction vs generalizing a with
  | nil => cases hv
  | cons x xs ih =>
    rcases List.mem_cons.mp hv with h | h
    · subst h
      calc (v :: xs).foldl min a = xs.foldl min (min a v) := rfl
        _ ≤ min a v := foldl_min_le_init xs (min a v)
        _ ≤ v := min_le_right a v
    · exact ih (min a x) h

lemma foldl_min_mem (vs : List ℚ) (a : ℚ) :
    vs.foldl min a = a ∨ vs.foldl min a ∈ vs := by
  induction vs generalizing a with
  | nil => exact Or.inl rfl
  | cons x xs ih =>
    rcases ih (min a x) with h | h
    · rcases min_choice a x with hm | hm
      · exact Or.inl (by rw [show (x :: xs).foldl min a = xs.foldl min (min a x) from rfl, h, hm])
      · refine Or.inr (List.mem_cons.mpr (Or.inl ?_))
        rw [show (x :: xs).foldl min a = xs.foldl min (min a x) from rfl, h, hm]
    · exact Or.inr (List.mem_cons.mpr (Or.inr h))

lemma le_foldl_max_init (vs : List ℚ) (a : ℚ) : a ≤ vs.foldl max a := by
  induction vs generalizing a with
  | nil => exact le_refl a
  | cons x xs ih =>
    calc a ≤ max a x := le_max_left a x
      _ ≤ xs.foldl max (max a x) := ih (max a x)
      _ = (x :: xs).foldl max a := rfl

lemma mem_le_foldl_max (vs : List ℚ) (a v : ℚ) (hv : v ∈ vs) :
    v ≤ vs.foldl max a := by
  induction vs generalizing a with
  | nil => cases hv
  | cons x xs ih =>
    rcases List.mem_cons.mp hv with h | h
    · subst h
      calc v ≤ max a v := le_max_right a v
        _ ≤ xs.foldl max (max a v) := le_foldl_max_init xs (max a v)
        _ = (v :: xs).foldl max a := rfl
    · exact ih (max a x) h

lemma foldl_max_mem (vs : List ℚ) (a : ℚ) :
    vs.foldl max a = a ∨ vs.foldl max a ∈ vs := by
  induction vs generalizing a with
  | nil => exact Or.inl rfl
  | cons x xs ih =>
    rcases ih (max a x) with h | h
    · rcases max_choice a x with hm | hm
      · exact Or.inl (by rw [show (x :: xs).foldl max a = xs.foldl max (max a x) from rfl, h, hm])
      · refine Or.inr (List.mem_cons.mpr (Or.inl ?_))
        rw [show (x :: xs).foldl max a = xs.foldl max (max a x) from rfl, h, hm]
    · exact Or.inr (List.mem_cons.mpr (Or.inr h))

/-- Claim C3: for every non-empty value sequence, the computed range is exact:
min and max are elements of the sequence and bound every element. -/
theorem computeRange_correct (values : List ℚ) (h : values ≠ []) :
    ((computeRange values).1 ∈ values ∧ (computeRange values).2 ∈ values) ∧
    ∀ v ∈ values, (computeRange values).1 ≤ v ∧ v ≤ (computeRange values).2 := by
  match values, h with
  | v :: vs, _ =>
    refine ⟨⟨?_, ?_⟩, ?_⟩
    · rcases foldl_min_mem vs v with hm | hm
      · exact List.mem_cons.mpr (Or.inl (by rw [show (computeRange (v :: vs)).1 = vs.foldl min v from rfl, hm]))
      · exact List.mem_cons.mpr (Or.inr (by rw [show (computeRange (v :: vs)).1 = vs.foldl min v from rfl]; exact hm))
    · rcases foldl_max_mem vs v with hm | hm
      · exact List.mem_cons.mpr (Or.inl (by rw [show (computeRange (v :: vs)).2 = vs.foldl max v from rfl, hm]))
      · exact List.mem_cons.mpr (Or.inr (by rw [show (computeRange (v :: vs)).2 = vs.foldl max v from rfl]; exact hm))
    · intro w hw
      rcases List.mem_cons.mp hw with hww | hww
      · subst hww
        exact ⟨foldl_min_le_init vs w, le_foldl_max_init vs w⟩
      · exact ⟨foldl_min_le_mem vs v w hww, mem_le_foldl_max vs v w hww⟩

/-- Witness for C3: the theorem instantiated at the concrete sequence
[5, 15], whose range is (5, 15). -/
theorem computeRange_correct_witness :
    (([(5 : ℚ), 15] : List ℚ) ≠ []) ∧
    (((computeRange [(5 : ℚ), 15]).1 ∈ ([(5 : ℚ), 15] : List ℚ) ∧
        (computeRange [(5 : ℚ), 15]).2 ∈ ([(5 : ℚ), 15] : List ℚ)) ∧
      ∀ v ∈ ([(5 : ℚ), 15] : List ℚ),
        (computeRange [(5 : ℚ), 15]).1 ≤ v ∧ v ≤ (computeRange [(5 : ℚ), 15]).2) :=
  ⟨by simp, computeRange_correct [(5 : ℚ), 15] (by simp)⟩

/-- The three render states of the App component. -/
inductive AppView where
  | loadingScreen : String → AppView
  | errorScreen : String → AppView
  | mapView : List CellRecord → ℚ × ℚ → AppView
deriving DecidableEq

/-- Embedding of the render logic of App (src/src/App.tsx lines 105 to 200):
while loading, the loading screen; with zero records, the static error
message and no map; otherwise the DeckGL map with the polygon layer built
from the data and range. -/
def renderApp (loading : Bool) (data : List CellRecord) (dataRange : ℚ × ℚ) : AppView :=
  if loading then .loadingScreen "Loading Mumbai H3 data..."
  else if data.length = 0 then .errorScreen "Error loading data"
  else .mapView data dataRange

/-- Claim C9: whenever the loader returns zero records, the view after
loading completes renders the static error message and no map view. -/
theorem emptyData_renders_error (fetched : Except String String) (range : ℚ × ℚ)
    (h : loadCSVData fetched = []) :
    renderApp false (loadCSVData fetched) range = .errorScreen "Error loading data" ∧
    ∀ d r, renderApp false (loadCSVData fetched) range ≠ AppView.mapView d r := by
  rw [h]
  exact ⟨rfl, fun d r hc => by simp [renderApp] at hc⟩

/-- Witness for C9: a failed fetch yields zero records and the view renders
the error screen. -/
theorem emptyData_renders_error_witness :
    (loadCSVData (Except.error "network error") = []) ∧
    renderApp false (loadCSVData (Except.error "network error")) (0, 0) =
      .errorScreen "Error loading data" :=
  ⟨rfl, (emptyData_renders_error (Except.error "network error") (0, 0) rfl).1⟩

/-- A JS number for the division-by-zero analysis: an exact rational, NaN, or
a signed infinity.  Signed zero is not distinguished; it does not matter for
the min-equals-max scenario, where the numerator is 0 and the result NaN. -/
inductive JsNum where
  | num : ℚ → JsNum
  | nan : JsNum
  | inf : JsNum
  | ninf : JsNum
deriving DecidableEq, Repr

/-- JS unary negation on the JsNum model. -/
def jsNeg : JsNum → JsNum
  | .num a => .num (-a)
  | .nan => .nan
  | .inf => .ninf
  | .ninf => .inf

/-- JS addition: NaN propagates; opposite infinities give NaN. -/
def jsAdd : JsNum → JsNum → JsNum
  | .num a, .num b => .num (a + b)
  | .nan, _ => .nan
  | _, .nan => .nan
  | .inf, .ninf => .nan
  | .ninf, .inf => .nan
  | .inf, _ => .inf
  | _, .inf => .inf
  | .ninf, _ => .ninf
  | _, .ninf => .ninf

/-- JS subtraction, as addition of the negation. -/
def jsSub (a b : JsNum) : JsNum :=
  jsAdd a (jsNeg b)

/-- JS multiplication: NaN propagates; zero times infinity is NaN. -/
def jsMul : JsNum → JsNum → JsNum
  | .num a, .num b => .num (a * b)
  | .nan, _ => .nan
  | _, .nan => .nan
  | .inf, .inf => .inf
  | .inf, .ninf => .ninf
  | .ninf, .inf => .ninf
  | .ninf, .ninf => .inf
  | .num a, .inf => if a = 0 then .nan else if 0 < a then .inf else .ninf
  | .num a, .ninf => if a = 0 then .nan else if 0 < a then .ninf else .inf
  | .inf, .num b => if b = 0 then .nan else if 0 < b then .inf else .ninf
  | .ninf, .num b => if b = 0 then .nan else if 0 < b then .ninf else .inf

/-- JS division: 0/0 is NaN, a nonzero finite numerator over 0 is a signed
infinity, NaN propagates, infinity over infinity is NaN. -/
def jsDiv : JsNum → JsNum → JsNum
  | .num a, .num b =>
      if b = 0 then (if a = 0 then .nan else if 0 < a then .inf else .ninf)
      else .num (a / b)
  | .nan, _ => .nan
  | _, .nan => .nan
  | .inf, .inf => .nan
  | .inf, .ninf => .nan
  | .ninf, .inf => .nan
  | .ninf, .ninf => .nan
  | .inf, .num b => if 0 ≤ b then .inf else .ninf
  | .ninf, .num b => if 0 ≤ b then .ninf else .inf
  | .num _, .inf => .num 0
  | .num _, .ninf => .num 0

/-- The JS comparison a <= b: any comparison with NaN is false. -/
def jsLe : JsNum → JsNum → Bool
  | .nan, _ => false
  | _, .nan => false
  | .ninf, _ => true
  | _, .inf => true
  | .inf, _ => false
  | .num _, .ninf => false
  | .num a, .num b => a ≤ b

/-- JS Math.round on the JsNum model: round finite values, fix the rest. -/
def jsRound : JsNum → JsNum
  | .num a => .num (round a)
  | x => x

/-- One channel Math.round(a + (b - a) * t) of getKeplerColor, under JS
number semantics. -/
def jsChannel (a b : ℚ) (t : JsNum) : JsNum :=
  jsRound (jsAdd (.num a) (jsMul (jsSub (.num b) (.num a)) t))

/-- getKeplerColor under JS number semantics: the same four branches as in
src/src/App.tsx lines 13 to 49, with NaN-aware comparison, division,
interpolation and rounding. -/
def getKeplerColorJs (normalized : JsNum) : JsNum × JsNum × JsNum × JsNum :=
  if jsLe normalized (.num 0.25) then
    (jsChannel 68 59 (jsDiv normalized (.num 0.25)),
      jsChannel 1 82 (jsDiv normalized (.num 0.25)),
      jsChannel 84 139 (jsDiv normalized (.num 0.25)), .num 200)
  else if jsLe normalized (.num 0.5) then
    (jsChannel 59 33 (jsDiv (jsSub normalized (.num 0.25)) (.num 0.25)),
      jsChannel 82 144 (jsDiv (jsSub normalized (.num 0.25)) (.num 0.25)),
      jsChannel 139 140 (jsDiv (jsSub normalized (.num 0.25)) (.num 0.25)), .num 200)
  else if jsLe normalized (.num 0.75) then
    (jsChannel 33 94 (jsDiv (jsSub normalized (.num 0.5)) (.num 0.25)),
      jsChannel 144 201 (jsDiv (jsSub normalized (.num 0.5)) (.num 0.25)),
      jsChannel 140 98 (jsDiv (jsSub normalized (.num 0.5)) (.num 0.25)), .num 200)
  else
    (jsChannel 94 253 (jsDiv (jsSub normalized (.num 0.75)) (.num 0.25)),
      jsChannel 201 231 (jsDiv (jsSub normalized (.num 0.75)) (.num 0.25)),
      jsChannel 98 37 (jsDiv (jsSub normalized (.num 0.75)) (.num 0.25)), .num 200)

/-- The per-cell normalization (v - min) / (max - min) from the
getFillColor accessor (src/src/App.tsx line 130), under JS semantics. -/
def normalizeJs (v mn mx : ℚ) : JsNum :=
  jsDiv (jsSub (.num v) (.num mn)) (jsSub (.num mx) (.num mn))

/-- The getFillColor accessor (src/src/App.tsx lines 128 to 132): the
normalization result is passed to the color mapper with no guard. -/
def getFillColorJs (v mn mx : ℚ) : JsNum × JsNum × JsNum × JsNum :=
  getKeplerColorJs (normalizeJs v mn mx)

/-- Claim C5: when the computed range has min equal to max, the per-cell
normalization divides zero by zero and yields NaN, a non-finite value that
reaches the color mapper unguarded; the produced fill color then has NaN in
all three RGB channels (alpha 200), a degenerate color. -/
theorem minEqMax_degenerate (v mn mx : ℚ)
    (h1 : mn ≤ v) (h2 : v ≤ mx) (heq : mn = mx) :
    normalizeJs v mn mx = JsNum.nan ∧
    getFillColorJs v mn mx = (JsNum.nan, JsNum.nan, JsNum.nan, JsNum.num 200) := by
  subst heq
  have hv : v = mn := le_antisymm h2 h1
  subst hv
  have hn : normalizeJs v v v = JsNum.nan := by
    simp [normalizeJs, jsSub, jsNeg, jsAdd, jsDiv]
  refine ⟨hn, ?_⟩
  unfold getFillColorJs
  rw [hn]
  rfl

/-- Witness for C5: the theorem instantiated at value 5 with range (5, 5). -/
theorem minEqMax_degenerate_witness :
    ((5 : ℚ) ≤ 5) ∧ ((5 : ℚ) = 5) ∧
    (normalizeJs 5 5 5 = JsNum.nan ∧
      getFillColorJs 5 5 5 = (JsNum.nan, JsNum.nan, JsNum.nan, JsNum.num 200)) :=
  ⟨le_refl 5, rfl, minEqMax_degenerate 5 5 5 (le_refl 5) (le_refl 5) rfl⟩

end H3App
